import Mathlib

/-!
Shallow embedding of the request lifecycle and deduplication engine of
`src/index.js` (a Vue/axios fetch coordinator).  JavaScript values that can
appear in a request config are modelled by `Json`; `undefined` is modelled by
`Option.none` wherever the code distinguishes it.
-/

/-- JSON-serialisable JavaScript values.  Object fields keep their insertion
order, exactly as `JSON.stringify` observes them. -/
inductive Json where
  | null : Json
  | bool : Bool → Json
  | num : Int → Json
  | str : String → Json
  | arr : List Json → Json
  | obj : List (String × Json) → Json
deriving Repr

/-- Escape of one character inside a JSON string literal (`"` and `\`). -/
def escChar (c : Char) : List Char :=
  if c = '"' then ['\\', '"'] else if c = '\\' then ['\\', '\\'] else [c]

/-- Body of a serialised JSON string literal. -/
def escapeJsonString (s : String) : String :=
  String.mk (s.data.map escChar).flatten

/-- A serialised JSON string literal, quotes included. -/
def jstr (s : String) : String :=
  "\"" ++ escapeJsonString s ++ "\""

mutual

/-- `JSON.stringify` on a defined value: fields in insertion order. -/
def stringify : Json → String
  | .null => "null"
  | .bool true => "true"
  | .bool false => "false"
  | .num n => toString n
  | .str s => jstr s
  | .arr xs => "[" ++ String.intercalate "," (stringifyList xs) ++ "]"
  | .obj fs => "\x7b" ++ String.intercalate "," (stringifyFields fs) ++ "\x7d"
termination_by structural j => j

/-- Serialised elements of a JSON array. -/
def stringifyList : List Json → List String
  | [] => []
  | x :: xs => stringify x :: stringifyList xs
termination_by structural l => l

/-- Serialised fields of a JSON object, in insertion order. -/
def stringifyFields : List (String × Json) → List String
  | [] => []
  | (k, v) :: fs => (jstr k ++ ":" ++ stringify v) :: stringifyFields fs
termination_by structural l => l

end

/-- Insertion into a key-sorted field list (used to canonicalise key order). -/
def insertField (p : String × Json) : List (String × Json) → List (String × Json)
  | [] => [p]
  | q :: qs => if p.1 ≤ q.1 then p :: q :: qs else q :: insertField p qs

/-- Sort an object field list by key. -/
def sortFields (l : List (String × Json)) : List (String × Json) :=
  l.foldr insertField []

mutual

/-- Canonical form of a value: object keys sorted at every level.  Two values
are "structurally identical regardless of key order" iff their canonical
forms are equal. -/
def canon : Json → Json
  | .null => .null
  | .bool b => .bool b
  | .num n => .num n
  | .str s => .str s
  | .arr xs => .arr (canonList xs)
  | .obj fs => .obj (sortFields (canonFields fs))
termination_by structural j => j

/-- Canonical forms of array elements. -/
def canonList : List Json → List Json
  | [] => []
  | x :: xs => canon x :: canonList xs
termination_by structural l => l

/-- Canonical forms of object field values. -/
def canonFields : List (String × Json) → List (String × Json)
  | [] => []
  | (k, v) :: fs => (k, canon v) :: canonFields fs
termination_by structural l => l

end

/-- Structural identity of two values up to object-key order. -/
def structEquiv (a b : Json) : Prop := canon a = canon b

/-- Structural identity lifted to possibly-`undefined` values. -/
def optStructEquiv : Option Json → Option Json → Prop
  | none, none => True
  | some a, some b => structEquiv a b
  | _, _ => False

/-- A request config as consumed by `runFetch` / `getRequestKey`
(`src/index.js`).  `none` models an absent / `undefined` field. -/
structure RequestConfig where
  method : Option Json := none
  url : Option Json := none
  params : Option Json := none
  data : Option Json := none
deriving Repr

/-- `hasUrl` (src/index.js line 12): the `url` field is present, a string,
and non-empty after trimming. -/
def hasUrl (c : RequestConfig) : Bool :=
  match c.url with
  | some (.str u) => decide (0 < u.trim.length)
  | _ => false

/-- Serialisation of `{ method, url, params, data }` by `JSON.stringify`:
fields in that fixed order, `undefined` fields omitted. -/
def requestKeyOf (m : Json) (url params data : Option Json) : String :=
  let fields : List (String × Option Json) :=
    [("method", some m), ("url", url), ("params", params), ("data", data)]
  "\x7b" ++
    String.intercalate ","
      (fields.filterMap (fun p => p.2.map (fun v => jstr p.1 ++ ":" ++ stringify v))) ++
  "\x7d"

/-- `getRequestKey` (src/index.js line 16): destructure
`{ method = 'get', url, params, data }` and stringify the four fields. -/
def getRequestKey (c : RequestConfig) : String :=
  requestKeyOf (c.method.getD (.str "get")) c.url c.params c.data

/-! ## Fetch instance state machine (src/index.js lines 34-51, 82-123, 135-186) -/

/-- `FetchStatus` (src/index.js line 4). -/
inductive FetchStatus where
  | inactive : FetchStatus
  | loading : FetchStatus
  | done : FetchStatus
deriving Repr, DecidableEq

/-- The reactive per-instance state (src/index.js line 34).  JavaScript `null`
is `none` (or `Json.null` for `result`), `undefined` is `none` for the
override sentinel. -/
structure FetchState where
  result : Json
  statusCode : Option Nat
  headers : Option Json
  error : Option Json
  status : FetchStatus
  overrideSafeResult : Option Json
deriving Repr

/-- The initial reactive state (src/index.js lines 34-41). -/
def initState : FetchState :=
  { result := .null, statusCode := none, headers := none, error := none,
    status := .inactive, overrideSafeResult := none }

/-- A transport (axios) response. -/
structure AxiosResponse where
  data : Json
  status : Nat
  headers : Json
deriving Repr

/-- How an awaited shared call settles: fulfilled, rejected with a
non-cancellation error, or rejected with a cancellation
(`axios.isCancel(error)` true). -/
inductive CallOutcome where
  | success (r : AxiosResponse)
  | failure (e : Json)
  | cancelled (e : Json)
deriving Repr

/-- Observable side effects of a run, in order of occurrence. -/
inductive Event where
  | transportCall
  | onSuccessCall
  | onErrorCall
  | onFinishCall
  | timerScheduled (delay : Int)
  | abortCall (ctrl : Nat)
deriving Repr, DecidableEq

/-- Per-instance configuration captured by the closure (src/index.js
lines 24-32): which callbacks are configured, the safe-result getter
(which, in JavaScript, may return `undefined`, modelled as `none`), and the
current numeric poll interval (`-1` disables polling; a function-valued
`poll` is modelled by the number it evaluates to at settlement time). -/
structure FetchCfg where
  hasOnSuccess : Bool
  hasOnError : Bool
  hasOnFinish : Bool
  safeResultGetter : Json → Option Json
  poll : Int

/-- The configuration with default options: no callbacks, identity getter,
`poll = -1`. -/
def defaultCfg : FetchCfg :=
  { hasOnSuccess := false, hasOnError := false, hasOnFinish := false,
    safeResultGetter := fun r => some r, poll := -1 }

/-- `safeResult` (src/index.js line 50): the override when it is not
`undefined`, else the getter applied to `result`. -/
def safeResult (cfg : FetchCfg) (s : FetchState) : Option Json :=
  match s.overrideSafeResult with
  | none => cfg.safeResultGetter s.result
  | some v => some v

/-- The write `state.status = FetchStatus.Loading` (src/index.js line 82):
the only field it assigns is `status`. -/
def enterLoading (s : FetchState) : FetchState :=
  { s with status := .loading }

/-- `overrideSafeResult(value)` (src/index.js line 135). -/
def overrideSafeResultOp (v : Option Json) (s : FetchState) : FetchState :=
  { s with overrideSafeResult := v }

/-- `clearSafeOverride()` (src/index.js line 139). -/
def clearSafeOverrideOp (s : FetchState) : FetchState :=
  { s with overrideSafeResult := none }

/-- `clear()` (src/index.js line 178). -/
def clearOp (s : FetchState) : FetchState :=
  { s with overrideSafeResult := none, result := .null }

/-- Events emitted by the `finally` block (src/index.js lines 112-122):
schedule a poll timer when the interval is non-negative, then invoke
`onFinish` when configured. -/
def finallyEvents (cfg : FetchCfg) : List Event :=
  (if 0 ≤ cfg.poll then [Event.timerScheduled cfg.poll] else []) ++
  (if cfg.hasOnFinish then [Event.onFinishCall] else [])

/-- Result of the settlement phase of one run: the new reactive state, the
events emitted (in order), and the value the `runFetch` promise settles
with. -/
structure RunResult where
  state : FetchState
  events : List Event
  outcome : Except Json AxiosResponse

/-- The `try`/`catch`/`finally` around `await shared` (src/index.js
lines 84-122), given how the shared call settles. -/
def settleRun (cfg : FetchCfg) (s : FetchState) (out : CallOutcome) : RunResult :=
  match out with
  | .success r =>
      let s1 : FetchState :=
        { s with overrideSafeResult := none, result := r.data,
                 statusCode := some r.status, headers := some r.headers,
                 error := none, status := .done }
      { state := s1,
        events := (if cfg.hasOnSuccess then [Event.onSuccessCall] else []) ++
          finallyEvents cfg,
        outcome := .ok r }
  | .failure e =>
      let s1 : FetchState := { s with error := some e, status := .done }
      { state := s1,
        events := (if cfg.hasOnError then [Event.onErrorCall] else []) ++
          finallyEvents cfg,
        outcome := .error e }
  | .cancelled e =>
      { state := s, events := finallyEvents cfg, outcome := .error e }

/-- The per-instance closure variables relevant to `stop()`: the abort
controller this instance last created, if any (src/index.js line 53:
`controller` starts as `null` and is assigned only when this instance
creates a new shared call, line 70). -/
structure InstRunVars where
  controller : Option Nat
deriving Repr

/-- `stop()` (src/index.js lines 159-164): only when this instance holds a
controller AND its status is Loading, abort that controller and set status
to Done; otherwise do nothing. -/
def stop (v : InstRunVars) (s : FetchState) : FetchState × List Event :=
  match v.controller with
  | some ctrl =>
      if s.status = .loading then ({ s with status := .done }, [.abortCall ctrl])
      else (s, [])
  | none => (s, [])

/-- The state-mutating operations available on one instance, used to express
temporal ("until") properties as traces. -/
inductive FetchOp where
  | overrideSafe (v : Option Json)
  | clearSafeOverrideCall
  | clearCall
  | enterLoadingWrite
  | settle (out : CallOutcome)
  | stopCall (v : InstRunVars)

/-- Effect of one operation on the reactive state. -/
def applyOp (cfg : FetchCfg) (s : FetchState) : FetchOp → FetchState
  | .overrideSafe v => overrideSafeResultOp v s
  | .clearSafeOverrideCall => clearSafeOverrideOp s
  | .clearCall => clearOp s
  | .enterLoadingWrite => enterLoading s
  | .settle out => (settleRun cfg s out).state
  | .stopCall v => (stop v s).1

/-- Effect of a sequence of operations, oldest first. -/
def applyOps (cfg : FetchCfg) (s : FetchState) (ops : List FetchOp) : FetchState :=
  ops.foldl (applyOp cfg) s

/-- The operations that write the `overrideSafeResult` field: a new
override, an explicit clear, `clear()`, or a successful settlement. -/
def touchesOverride : FetchOp → Bool
  | .overrideSafe _ => true
  | .clearSafeOverrideCall => true
  | .clearCall => true
  | .settle (.success _) => true
  | _ => false

/-! ## In-flight registry and shared calls (src/index.js lines 10, 59-80) -/

/-- `Map.get` on an association list with unique keys. -/
def assocGet {α β : Type} [DecidableEq α] (k : α) : List (α × β) → Option β
  | [] => none
  | (q, v) :: rest => if q = k then some v else assocGet k rest

/-- `Map.set`: replace the entry for `k` or append a new one. -/
def assocSet {α β : Type} [DecidableEq α] (k : α) (v : β) : List (α × β) → List (α × β)
  | [] => [(k, v)]
  | (q, w) :: rest => if q = k then (k, v) :: rest else (q, w) :: assocSet k v rest

/-- `Map.delete`: remove the entry for `k`, if present. -/
def assocDelete {α β : Type} [DecidableEq α] (k : α) : List (α × β) → List (α × β)
  | [] => []
  | (q, w) :: rest => if q = k then rest else (q, w) :: assocDelete k rest

/-- The process-wide state shared by all fetch instances:
`pending` is the `pendingRequests` map (src/index.js line 10) from request
key to the identifier of the in-flight shared call; `creators` records which
instance created each shared call (that instance's closure registered the
cleanup `finally`, src/index.js line 75); `instKey` holds each instance's
mutable `currentKey` variable (src/index.js line 55); `nextCall` generates
fresh shared-call identifiers. -/
structure GlobalState where
  pending : List (String × Nat)
  creators : List (Nat × Nat)
  instKey : List (Nat × String)
  nextCall : Nat
deriving Repr, DecidableEq

/-- The empty process state: no pending request, no instance has run. -/
def initGlobal : GlobalState :=
  { pending := [], creators := [], instKey := [], nextCall := 0 }

/-- The synchronous prefix of `runFetch` (src/index.js lines 59-80), run by
instance `inst`: validate the url, write the instance's `currentKey`
variable, then either attach to the pending shared call for that key or
create a fresh one (issuing a transport call and registering it).  Returns
the new global state, the shared-call identifier this run awaits, and
whether a new transport call was issued. -/
def startRun (g : GlobalState) (inst : Nat) (c : RequestConfig) :
    Except String (GlobalState × Nat × Bool) :=
  if hasUrl c then
    let key := getRequestKey c
    let g1 : GlobalState := { g with instKey := assocSet inst key g.instKey }
    match assocGet key g1.pending with
    | some cid => .ok (g1, cid, false)
    | none =>
        let cid := g1.nextCall
        .ok ({ g1 with
                pending := assocSet key cid g1.pending,
                creators := assocSet cid inst g1.creators,
                nextCall := g1.nextCall + 1 },
             cid, true)
  else .error "Config with url is required"

/-- The registry cleanup that runs when shared call `cid` settles: the
`finally` continuation `pendingRequests.delete(currentKey)` (src/index.js
line 76) registered by the creating instance.  The closure reads that
instance's `currentKey` variable at settlement time, not the key the call
was created under. -/
def settleCall (g : GlobalState) (cid : Nat) : GlobalState :=
  match assocGet cid g.creators with
  | some inst =>
      match assocGet inst g.instKey with
      | some key => { g with pending := assocDelete key g.pending }
      | none => g
  | none => g

/-- One whole uninterleaved run of `runFetch` (src/index.js lines 59-123):
the synchronous prefix, the Loading transition, then the given settlement of
the shared call together with its registry cleanup.  When the url check
fails, the function throws before mutating anything (lines 60-62). -/
def runFetchSolo (g : GlobalState) (inst : Nat) (cfg : FetchCfg) (s : FetchState)
    (c : RequestConfig) (out : CallOutcome) :
    GlobalState × FetchState × List Event × Except Json AxiosResponse :=
  match startRun g inst c with
  | .error msg => (g, s, [], .error (.str msg))
  | .ok (g1, cid, isNew) =>
      let rr := settleRun cfg (enterLoading s) out
      (settleCall g1 cid, rr.state,
       (if isNew then [Event.transportCall] else []) ++ rr.events, rr.outcome)

/-! ## Poll timers (src/index.js lines 57, 112-117, 152-157) -/

/-- The timers of one instance: `pendingTimers` are the timeouts registered
with the runtime and not yet fired or cleared; `pollTimer` is the handle the
instance tracks (src/index.js line 57); `nextTimer` generates fresh timeout
handles. -/
structure TimerState where
  pendingTimers : List Nat
  pollTimer : Option Nat
  nextTimer : Nat
deriving Repr, DecidableEq

/-- The timer state of a freshly constructed instance. -/
def timerInit : TimerState :=
  { pendingTimers := [], pollTimer := none, nextTimer := 0 }

/-- `pollTimer = setTimeout(...)` (src/index.js line 116): register a fresh
timeout with the runtime and overwrite the tracked handle.  No
`clearTimeout` is issued for a previously tracked handle. -/
def scheduleTimer (t : TimerState) : TimerState :=
  { pendingTimers := t.nextTimer :: t.pendingTimers,
    pollTimer := some t.nextTimer,
    nextTimer := t.nextTimer + 1 }

/-- `stopPoll()` (src/index.js lines 152-157): when a handle is tracked,
`clearTimeout` it and null the handle. -/
def stopPoll (t : TimerState) : TimerState :=
  match t.pollTimer with
  | some id => { t with pendingTimers := t.pendingTimers.erase id, pollTimer := none }
  | none => t

/-- A timeout firing: the runtime removes it from the pending set (the run
it triggers is modelled by the other operations). -/
def fireTimer (t : TimerState) (id : Nat) : TimerState :=
  { t with pendingTimers := t.pendingTimers.erase id }

/-- Timer-affecting operations of one instance. -/
inductive TimerOp where
  | schedule : TimerOp
  | stopPollCall : TimerOp
  | fire (id : Nat) : TimerOp

/-- Effect of one timer operation. -/
def applyTimerOp (t : TimerState) : TimerOp → TimerState
  | .schedule => scheduleTimer t
  | .stopPollCall => stopPoll t
  | .fire id => fireTimer t id

/-- Effect of a sequence of timer operations, oldest first. -/
def runTimerOps (t : TimerState) (ops : List TimerOp) : TimerState :=
  ops.foldl applyTimerOp t

/-! ## Helper lemmas -/

/-- Reading a key back right after `Map.set` yields the stored value. -/
theorem assocGet_assocSet_self {α β : Type} [DecidableEq α] (k : α) (v : β)
    (m : List (α × β)) : assocGet k (assocSet k v m) = some v := by
  induction m with
  | nil => simp [assocSet, assocGet]
  | cons p rest ih =>
      obtain ⟨q, w⟩ := p
      by_cases h : q = k
      · simp [assocSet, assocGet, h]
      · simp [assocSet, assocGet, h, ih]

/-- `safeResult` returns the override whenever one is set. -/
theorem safeResult_of_override (cfg : FetchCfg) (s : FetchState) (u : Json)
    (h : s.overrideSafeResult = some u) : safeResult cfg s = some u := by
  unfold safeResult
  rw [h]

/-! ## Claims -/

/-- C1: the claim states that the request-key encoder is invariant under
reordering of object fields, in particular of the keys inside `params` and
`data`.  This is false: `getRequestKey` serialises `params`/`data` with
`JSON.stringify`, which preserves insertion order, so structurally identical
`params` objects with different key order produce different keys. -/
theorem getRequestKey_not_key_order_invariant :
    ¬ (∀ a b : RequestConfig,
        optStructEquiv a.method b.method → optStructEquiv a.url b.url →
        optStructEquiv a.params b.params → optStructEquiv a.data b.data →
        getRequestKey a = getRequestKey b) := by
  intro h
  have hk := h
    { url := some (.str "/u"), params := some (.obj [("a", .num 1), ("b", .num 2)]) }
    { url := some (.str "/u"), params := some (.obj [("b", .num 2), ("a", .num 1)]) }
    trivial rfl (by with_unfolding_all rfl) trivial
  exact absurd hk (by decide)

/-- C1 (amended): the encoder is deterministic in the four significant
fields taken as ordered values: two configs whose effective method (an
absent method defaults to `"get"`), `url`, `params` and `data` are equal as
written produce equal keys; top-level config field order is immaterial
(configs are records), but key order inside `params`/`data` is significant. -/
theorem getRequestKey_eq_of_fields_eq (a b : RequestConfig)
    (hm : a.method.getD (.str "get") = b.method.getD (.str "get"))
    (hu : a.url = b.url) (hp : a.params = b.params) (hd : a.data = b.data) :
    getRequestKey a = getRequestKey b := by
  unfold getRequestKey
  rw [hm, hu, hp, hd]

/-- C1 witness: a config with no method and one with the explicit default
method encode to the same key. -/
theorem getRequestKey_eq_of_fields_eq_witness :
    getRequestKey { url := some (.str "/users") } =
      getRequestKey { method := some (.str "get"), url := some (.str "/users") } :=
  getRequestKey_eq_of_fields_eq _ _ rfl rfl rfl rfl

/-- C2: if no shared call is pending for a key, a first run creates exactly
one new transport call, and a second run started with the same key before
that call settles attaches to the very same shared call without issuing a
new transport call. -/
theorem dedup_single_transport (g : GlobalState) (i1 i2 : Nat)
    (c1 c2 : RequestConfig) (h1 : hasUrl c1 = true) (h2 : hasUrl c2 = true)
    (hk : getRequestKey c1 = getRequestKey c2)
    (hfresh : assocGet (getRequestKey c1) g.pending = none) :
    ∃ g1 g2 : GlobalState,
      startRun g i1 c1 = .ok (g1, g.nextCall, true) ∧
      startRun g1 i2 c2 = .ok (g2, g.nextCall, false) := by
  have e1 : startRun g i1 c1 =
      .ok ({ pending := assocSet (getRequestKey c1) g.nextCall g.pending,
             creators := assocSet g.nextCall i1 g.creators,
             instKey := assocSet i1 (getRequestKey c1) g.instKey,
             nextCall := g.nextCall + 1 }, g.nextCall, true) := by
    simp [startRun, h1, hfresh]
  have e2 : startRun
      { pending := assocSet (getRequestKey c1) g.nextCall g.pending,
        creators := assocSet g.nextCall i1 g.creators,
        instKey := assocSet i1 (getRequestKey c1) g.instKey,
        nextCall := g.nextCall + 1 } i2 c2 =
      .ok ({ pending := assocSet (getRequestKey c1) g.nextCall g.pending,
             creators := assocSet g.nextCall i1 g.creators,
             instKey := assocSet i2 (getRequestKey c2)
               (assocSet i1 (getRequestKey c1) g.instKey),
             nextCall := g.nextCall + 1 }, g.nextCall, false) := by
    simp [startRun, h2, ← hk, assocGet_assocSet_self]
  exact ⟨_, _, e1, e2⟩

/-- C2 witness: two concrete runs for `/users`, started from the empty
registry by two different instances, share call 0 and only the first issues
a transport call. -/
theorem dedup_single_transport_witness :
    ∃ g1 g2 : GlobalState,
      startRun initGlobal 0 { url := some (.str "/users") } = .ok (g1, 0, true) ∧
      startRun g1 1 { url := some (.str "/users") } = .ok (g2, 0, false) :=
  dedup_single_transport initGlobal 0 1 _ _ (by with_unfolding_all rfl)
    (by with_unfolding_all rfl) rfl rfl

/-- First config of the stale-registry scenario. -/
def cfgA : RequestConfig := { url := some (.str "/a") }

/-- Second, distinct config of the stale-registry scenario. -/
def cfgB : RequestConfig := { url := some (.str "/b") }

/-- Global state after instance 0 starts a run for `cfgA` from scratch. -/
def gAfterA : GlobalState :=
  { pending := [(getRequestKey cfgA, 0)], creators := [(0, 0)],
    instKey := [(0, getRequestKey cfgA)], nextCall := 1 }

/-- Global state after instance 0 additionally starts a run for `cfgB`
before the `cfgA` call settles: its `currentKey` variable now holds the
`cfgB` key. -/
def gAfterB : GlobalState :=
  { pending := [(getRequestKey cfgA, 0), (getRequestKey cfgB, 1)],
    creators := [(0, 0), (1, 0)],
    instKey := [(0, getRequestKey cfgB)], nextCall := 2 }

/-- C3: the claim says a settling shared call removes its OWN key from the
registry regardless of other runs its creating instance started meanwhile.
The code instead deletes whatever the creating instance's mutable
`currentKey` variable holds at settlement time (the cleanup closure at
src/index.js line 76 captures the variable, not its value).  Failing input:
instance 0 runs `cfgA` (call 0), then runs `cfgB` (call 1) before call 0
settles; when call 0 settles, the registry still contains the `cfgA` key
(bound to the settled call 0), the unsettled `cfgB` entry was wrongly
deleted, and a later run for `cfgA` attaches to the stale settled call
instead of issuing a new transport call. -/
theorem settleCall_deletes_wrong_key :
    startRun initGlobal 0 cfgA = .ok (gAfterA, 0, true) ∧
    startRun gAfterA 0 cfgB = .ok (gAfterB, 1, true) ∧
    assocGet (getRequestKey cfgA) (settleCall gAfterB 0).pending = some 0 ∧
    assocGet (getRequestKey cfgB) (settleCall gAfterB 0).pending = none ∧
    startRun (settleCall gAfterB 0) 2 cfgA =
      .ok ({ pending := [(getRequestKey cfgA, 0)], creators := [(0, 0), (1, 0)],
             instKey := [(0, getRequestKey cfgB), (2, getRequestKey cfgA)],
             nextCall := 2 }, 0, false) := by
  refine ⟨?_, ?_, ?_, ?_, ?_⟩ <;> with_unfolding_all rfl

/-- C4: the claim states that the transition into Loading clears a prior
error.  It is false: the write at src/index.js line 82 assigns only
`status`; a prior error stays observable throughout the Loading phase. -/
theorem enterLoading_does_not_clear_error :
    ¬ (∀ s : FetchState, (enterLoading s).error = none) := by
  intro h
  have hc := h { initState with error := some (.str "boom") }
  simp [enterLoading, initState] at hc

/-- C4 (amended): entering Loading changes only `status`; the prior `error`
is preserved while Loading and is cleared when (and only on the paths
where) a run settles successfully. -/
theorem enterLoading_preserves_error :
    ∀ s : FetchState, (enterLoading s).status = .loading ∧
      (enterLoading s).error = s.error ∧
      ∀ (cfg : FetchCfg) (r : AxiosResponse),
        (settleRun cfg (enterLoading s) (.success r)).state.error = none := by
  intro s
  exact ⟨rfl, rfl, fun cfg r => rfl⟩

/-- The configuration of the C5 scenario: `onError` and `onFinish`
callbacks configured, defaults otherwise. -/
def errCfg : FetchCfg :=
  { defaultCfg with hasOnError := true, hasOnFinish := true }

/-- C5: when the shared call rejects with a non-cancellation error, the run
records the error, sets status Done, fires `onError` exactly once and
`onFinish` exactly once, re-raises the error to the caller, and leaves
`result`, `statusCode` and `headers` untouched. -/
theorem settleRun_failure_spec (cfg : FetchCfg) (s : FetchState) (e : Json)
    (hE : cfg.hasOnError = true) (hF : cfg.hasOnFinish = true) :
    (settleRun cfg s (.failure e)).state.error = some e ∧
    (settleRun cfg s (.failure e)).state.status = .done ∧
    (settleRun cfg s (.failure e)).state.result = s.result ∧
    (settleRun cfg s (.failure e)).state.statusCode = s.statusCode ∧
    (settleRun cfg s (.failure e)).state.headers = s.headers ∧
    (settleRun cfg s (.failure e)).events.count .onErrorCall = 1 ∧
    (settleRun cfg s (.failure e)).events.count .onFinishCall = 1 ∧
    (settleRun cfg s (.failure e)).outcome = .error e := by
  refine ⟨rfl, rfl, rfl, rfl, rfl, ?_, ?_, rfl⟩ <;>
    · by_cases hp : (0 : Int) ≤ cfg.poll <;>
        simp [settleRun, finallyEvents, hE, hF, hp, List.count_cons, List.count_append]

/-- C5 witness: a concrete failed run from the initial state. -/
theorem settleRun_failure_spec_witness :
    (settleRun errCfg initState (.failure (.str "boom"))).state.error =
      some (.str "boom") :=
  (settleRun_failure_spec errCfg initState (.str "boom") rfl rfl).1

/-- C6: the claim states that `stop()` while Loading always transitions
status to Done, including when the Loading run attached to a shared call
another instance created.  It is false: `stop()` (src/index.js line 160) is
guarded on `controller`, which is set only when THIS instance creates a
shared call; an instance whose Loading run attached to a foreign shared
call (and that never created one) has `controller === null`, so `stop()`
does nothing and status stays Loading. -/
theorem stop_noop_without_controller :
    ¬ (∀ (v : InstRunVars) (s : FetchState), s.status = .loading →
        (stop v s).1.status = .done ∧ (stop v s).1.error = s.error ∧
        Event.onErrorCall ∉ (stop v s).2) := by
  intro h
  have hc := (h { controller := none } { initState with status := .loading } rfl).1
  simp [stop, initState] at hc

/-- C6 (amended): while Loading, `stop()` transitions status to Done, leaves
`error` unchanged (hence null if it was null) and fires no callback — but
only when the instance holds an abort controller, i.e. it previously created
a shared call itself; an instance that only ever attached to shared calls
created by other instances has no controller and `stop()` is a no-op.  A
cancellation settling a run likewise records no error and fires no
`onError`. -/
theorem stop_spec_amended :
    (∀ (ctrl : Nat) (s : FetchState), s.status = .loading →
        stop { controller := some ctrl } s =
          ({ s with status := .done }, [.abortCall ctrl])) ∧
    (∀ s : FetchState, stop { controller := none } s = (s, [])) ∧
    (∀ (v : InstRunVars) (s : FetchState), (stop v s).1.error = s.error ∧
        Event.onErrorCall ∉ (stop v s).2) ∧
    (∀ (cfg : FetchCfg) (s : FetchState) (e : Json),
        (settleRun cfg s (.cancelled e)).state.error = s.error ∧
        Event.onErrorCall ∉ (settleRun cfg s (.cancelled e)).events) := by
  refine ⟨?_, ?_, ?_, ?_⟩
  · intro ctrl s h
    simp [stop, h]
  · intro s
    rfl
  · intro v s
    obtain ⟨ctrl⟩ := v
    cases ctrl with
    | none => exact ⟨rfl, by simp [stop]⟩
    | some c =>
        by_cases h : s.status = .loading <;>
          simp [stop, h]
  · intro cfg s e
    refine ⟨rfl, ?_⟩
    by_cases hp : (0 : Int) ≤ cfg.poll <;> by_cases hf : cfg.hasOnFinish <;>
      simp [settleRun, finallyEvents, hp, hf]

/-- C6 witness: a Loading instance that owns controller 0 is stopped. -/
theorem stop_spec_amended_witness :
    stop { controller := some 0 } { initState with status := .loading } =
      ({ initState with status := .done }, [.abortCall 0]) :=
  stop_spec_amended.1 0 { initState with status := .loading } rfl

/-- Override writes aside, every operation preserves the override field. -/
theorem applyOps_override_eq (cfg : FetchCfg) :
    ∀ (ops : List FetchOp) (s : FetchState),
      (∀ op ∈ ops, touchesOverride op = false) →
      (applyOps cfg s ops).overrideSafeResult = s.overrideSafeResult := by
  intro ops
  induction ops with
  | nil => intro s _; rfl
  | cons op rest ih =>
      intro s h
      have hop : touchesOverride op = false := h op (List.mem_cons_self op rest)
      have hrest : ∀ o ∈ rest, touchesOverride o = false :=
        fun o ho => h o (List.mem_cons_of_mem op ho)
      have hstep : (applyOp cfg s op).overrideSafeResult = s.overrideSafeResult := by
        cases op with
        | overrideSafe v => simp [touchesOverride] at hop
        | clearSafeOverrideCall => simp [touchesOverride] at hop
        | clearCall => simp [touchesOverride] at hop
        | enterLoadingWrite => rfl
        | settle out =>
            cases out with
            | success r => simp [touchesOverride] at hop
            | failure e => rfl
            | cancelled e => rfl
        | stopCall v =>
            obtain ⟨ctrl⟩ := v
            cases ctrl with
            | none => rfl
            | some c =>
                by_cases hs : s.status = .loading <;> simp [applyOp, stop, hs]
      have hchain : applyOps cfg s (op :: rest) = applyOps cfg (applyOp cfg s op) rest := rfl
      rw [hchain, ih (applyOp cfg s op) hrest, hstep]

/-- C7: the claim quantifies over EVERY value `v`, but `undefined` is the
internal sentinel for "no override": `overrideSafeResult(undefined)` leaves
`safeResult` at `safeResultGetter(result)`, not at the override, so the
claim fails at `v = undefined` (see C10). -/
theorem override_undefined_not_override :
    ¬ (∀ (cfg : FetchCfg) (v : Option Json) (s : FetchState),
        safeResult cfg (overrideSafeResultOp v s) = v) := by
  intro h
  have hc := h defaultCfg none initState
  simp [safeResult, overrideSafeResultOp, defaultCfg, initState] at hc

/-- C7 (amended): for every DEFINED value `v`, after `overrideSafeResult(v)`
the observable `safeResult` equals `v`, and it keeps equalling `v` across
any sequence of operations that does not write the override field (the
writers being another override call, `clearSafeOverride()`, `clear()`, and
a successful settlement); after `clearSafeOverride()` or after a successful
run, `safeResult` equals `safeResultGetter(result)`. -/
theorem overrideSafeResult_persistence (cfg : FetchCfg) (u : Json)
    (s : FetchState) (ops : List FetchOp)
    (h : ∀ op ∈ ops, touchesOverride op = false) :
    safeResult cfg (overrideSafeResultOp (some u) s) = some u ∧
    safeResult cfg (applyOps cfg (overrideSafeResultOp (some u) s) ops) = some u ∧
    (∀ s2 : FetchState,
        safeResult cfg (clearSafeOverrideOp s2) = cfg.safeResultGetter s2.result) ∧
    (∀ (s2 : FetchState) (r : AxiosResponse),
        safeResult cfg (settleRun cfg s2 (.success r)).state =
          cfg.safeResultGetter r.data) := by
  refine ⟨rfl, ?_, fun s2 => rfl, fun s2 r => rfl⟩
  exact safeResult_of_override cfg _ u
    ((applyOps_override_eq cfg ops (overrideSafeResultOp (some u) s) h).trans rfl)

/-- C7 witness: the override `7` survives a Loading transition and a failed
settlement. -/
theorem overrideSafeResult_persistence_witness :
    safeResult defaultCfg
      (applyOps defaultCfg (overrideSafeResultOp (some (.num 7)) initState)
        [.enterLoadingWrite, .settle (.failure (.str "x"))]) = some (.num 7) :=
  (overrideSafeResult_persistence defaultCfg (.num 7) initState
    [.enterLoadingWrite, .settle (.failure (.str "x"))]
    (by intro op hop; fin_cases hop <;> rfl)).2.1

/-- C8: a run over a config with a missing or empty url rejects with the
config error before mutating anything: the registry, the reactive state,
and the event log are untouched, and no transport call, callback or timer
happens (the throw at src/index.js lines 60-62 precedes every write and
sits outside the `try`/`finally`). -/
theorem runFetch_rejects_without_url (g : GlobalState) (inst : Nat)
    (cfg : FetchCfg) (s : FetchState) (c : RequestConfig) (out : CallOutcome)
    (h : hasUrl c = false) :
    runFetchSolo g inst cfg s c out =
      (g, s, [], .error (.str "Config with url is required")) := by
  unfold runFetchSolo startRun
  simp [h]

/-- C8 witness: the empty config is rejected and nothing changes. -/
theorem runFetch_rejects_without_url_witness :
    runFetchSolo initGlobal 0 defaultCfg initState {} (.failure .null) =
      (initGlobal, initState, [], .error (.str "Config with url is required")) :=
  runFetch_rejects_without_url initGlobal 0 defaultCfg initState {}
    (.failure .null) rfl

/-- C9: the claim states that at most one pending poll timer can exist per
instance (a new timer invalidates the previous one) and that `stopPoll()`
cancels whatever pending scheduled run exists.  It is false: the write at
src/index.js line 116 overwrites the tracked handle WITHOUT a `clearTimeout`
of the previous one, so after two schedulings with no firing in between
(e.g. a `start()` run settling while a poll timer is already pending) two
timers are pending, and `stopPoll()` cancels only the most recent one. -/
theorem two_timers_coexist :
    ¬ (∀ ops : List TimerOp,
        (runTimerOps timerInit ops).pendingTimers.length ≤ 1 ∧
        (runTimerOps timerInit (ops ++ [.stopPollCall])).pendingTimers = []) := by
  intro h
  exact absurd (h [.schedule, .schedule]).1 (by decide)

/-- C9 (amended): at most one timer HANDLE is tracked per instance:
scheduling replaces the handle with the fresh timer but leaves every
previously registered timer pending, and `stopPoll()` cancels exactly the
timer named by the handle (doing nothing when no handle is tracked). -/
theorem timer_handle_spec :
    (∀ t : TimerState, (scheduleTimer t).pollTimer = some t.nextTimer ∧
        (scheduleTimer t).pendingTimers = t.nextTimer :: t.pendingTimers) ∧
    (∀ (t : TimerState) (n : Nat), t.pollTimer = some n →
        (stopPoll t).pendingTimers = t.pendingTimers.erase n ∧
        (stopPoll t).pollTimer = none) ∧
    (∀ t : TimerState, t.pollTimer = none → stopPoll t = t) := by
  refine ⟨fun t => ⟨rfl, rfl⟩, ?_, ?_⟩
  · intro t n h
    simp [stopPoll, h]
  · intro t h
    simp [stopPoll, h]

/-- C9 witness: with timers 1 and 0 pending and handle 1 tracked,
`stopPoll()` cancels timer 1 only. -/
theorem timer_handle_spec_witness :
    (stopPoll { pendingTimers := [1, 0], pollTimer := some 1, nextTimer := 2 }).pendingTimers =
        List.erase [1, 0] 1 ∧
    (stopPoll { pendingTimers := [1, 0], pollTimer := some 1, nextTimer := 2 }).pollTimer =
        none :=
  timer_handle_spec.2.1 { pendingTimers := [1, 0], pollTimer := some 1, nextTimer := 2 } 1 rfl

/-- C10: passing `undefined` to `overrideSafeResult` is indistinguishable
from `clearSafeOverride()`: both write the sentinel, `safeResult` reverts to
`safeResultGetter(result)`, and an active override always yields a defined
`safeResult`, so no override can make `safeResult` hold `undefined`. -/
theorem overrideSafeResult_undefined_clears :
    (∀ s : FetchState, overrideSafeResultOp none s = clearSafeOverrideOp s) ∧
    (∀ (cfg : FetchCfg) (s : FetchState),
        safeResult cfg (overrideSafeResultOp none s) = cfg.safeResultGetter s.result) ∧
    (∀ (cfg : FetchCfg) (v : Json) (s : FetchState),
        safeResult cfg (overrideSafeResultOp (some v) s) = some v) :=
  ⟨fun _ => rfl, fun _ _ => rfl, fun _ _ _ => rfl⟩
